import Mathlib

/-!
Verification of the Octane-Core bracket and roster engine against its
specification.  The repository ships the React frontend
(web/frontend/src/App.jsx) of the system; the backend engine (the
Python bot and FastAPI service referenced by the README) is not part of
the sources, so engine-level operations are modelled from the
specification where noted.  Every other definition below is a direct
shallow embedding of the frontend code, with JavaScript truthiness made
explicit on Option-typed fields.
-/

namespace Octane

/-- JavaScript truthiness of a possibly missing string field: undefined,
null and the empty string are falsy. -/
def strTruthy : Option String → Bool
  | none => false
  | some s => s != ""

/-- JavaScript truthiness of a possibly missing numeric id field:
undefined, null and 0 are falsy. -/
def natTruthy : Option Nat → Bool
  | none => false
  | some n => n != 0

/-- JavaScript logical-or on string fields: returns the first operand
when it is truthy, otherwise the second operand. -/
def jsOr (a b : Option String) : Option String :=
  if strTruthy a then a else b

/-- JavaScript nullish coalescing on id fields: returns the first
operand unless it is null or undefined. -/
def nvlNat (a b : Option Nat) : Option Nat :=
  match a with
  | none => b
  | some x => some x

/-- A match of the bracket snapshot as the frontend receives it
(App.jsx: fields read by BracketVisual, BracketTree, BracketView and
enrichRoundsWithInferredWinners).  Option encodes absent or null JSON
fields; inferred_winner is absent (false) in every server payload and is
only ever set by the read-time enrichment below. -/
structure Match where
  id : Nat
  round_num : Nat
  bracket_section : Option String
  team1_name : Option String
  team2_name : Option String
  player1_name : Option String
  player2_name : Option String
  team1_id : Option Nat
  team2_id : Option Nat
  manual_entry1_id : Option Nat
  manual_entry2_id : Option Nat
  player1_id : Option Nat
  player2_id : Option Nat
  winner_name : Option String
  winner_team_id : Option Nat
  parent_match_id : Option Nat
  parent_match_slot : Nat
  inferred_winner : Bool
deriving Repr, DecidableEq

/-- Lookup in the byId map built with Object.fromEntries (App.jsx:1172):
for duplicate keys the last entry wins, hence the reverse. -/
def byIdLookup (all : List Match) (pid : Nat) : Option Match :=
  all.reverse.find? (fun m => m.id == pid)

/-- The name occupying the given slot of the parent match
(App.jsx:1181): team name, falling back to player name by JavaScript
logical-or. -/
def advancedNameOf (parent : Match) (slot : Nat) : Option String :=
  if slot == 1 then jsOr parent.team1_name parent.player1_name
  else jsOr parent.team2_name parent.player2_name

/-- Guard on the advanced name (App.jsx:1182): truthy and neither the
TBD placeholder nor the BYE sentinel. -/
def isRealAdvanced (n : Option String) : Bool :=
  strTruthy n && !(n == some ("TBD")) && !(n == some ("BYE"))

/-- Per-match body of enrichRoundsWithInferredWinners
(App.jsx:1175-1188). -/
def enrichMatch (all : List Match) (m : Match) : Match :=
  if !strTruthy m.winner_name && natTruthy m.parent_match_id then
    match byIdLookup all (m.parent_match_id.getD 0) with
    | some parent =>
      let advancedName := advancedNameOf parent m.parent_match_slot
      if isRealAdvanced advancedName then
        { m with winner_name := advancedName, inferred_winner := true }
      else m
    | none => m
  else m

/-- Read-time enrichment of the rounds map (App.jsx:1169-1192); rounds
are modelled as the entry list of the JSON object. -/
def enrichRoundsWithInferredWinners (rounds : List (String × List Match)) :
    List (String × List Match) :=
  let all := (rounds.map Prod.snd).flatten
  rounds.map (fun p => (p.1, p.2.map (enrichMatch all)))

/-- Restatement of the inferred-winner display rule in the words of the
specification, for comparison with the code: a match without a recorded
winner whose parent_match_id resolves to a match of the same bracket
shows the name held by the designated parent slot, provided that name is
a real entrant or team name (not empty, not TBD, not BYE), flagged as
inferred; every other match is returned unchanged. -/
def inferredWinnerView (all : List Match) (m : Match) : Match :=
  let parentRef : Option Nat :=
    match m.parent_match_id with
    | none => none
    | some n => if n == 0 then none else some n
  match parentRef with
  | none => m
  | some pid =>
    if strTruthy m.winner_name then m
    else
      match byIdLookup all pid with
      | none => m
      | some parent =>
        let nm := advancedNameOf parent m.parent_match_slot
        match nm with
        | some s =>
          if s != "" && s != "TBD" && s != "BYE" then
            { m with winner_name := nm, inferred_winner := true }
          else m
        | none => m

/-- Truthiness of the slot-1 entity reference chain
team1_id, manual_entry1_id, player1_id (App.jsx:959, 1222). -/
def slot1Entity (m : Match) : Bool :=
  natTruthy m.team1_id || natTruthy m.manual_entry1_id || natTruthy m.player1_id

/-- Truthiness of the slot-2 entity reference chain
team2_id, manual_entry2_id, player2_id (App.jsx:959, 1222). -/
def slot2Entity (m : Match) : Bool :=
  natTruthy m.team2_id || natTruthy m.manual_entry2_id || natTruthy m.player2_id

/-- Both slots hold an entity (bothFilled in BracketVisual, hasOpponent
in BracketView.renderRound; the two sites compute the same
expression). -/
def bothFilled (m : Match) : Bool :=
  slot1Entity m && slot2Entity m

/-- The match-dependent part of the condition under which the Swap and
Undo correction buttons are rendered (App.jsx:989-998 and 1275-1284):
a winner is displayed, it is not merely inferred, and both slots hold
entities. -/
def swapUndoOffered (m : Match) : Bool :=
  strTruthy m.winner_name && !m.inferred_winner && bothFilled m

/-- Guard under which clicking a slot may call setWinner
(App.jsx:959-960): both slots filled and no winner displayed yet. -/
def canSetWinner (m : Match) : Bool :=
  bothFilled m && !strTruthy m.winner_name

/-- An entry of the participant or standby roster list
(ParticipantsAndStandbyView). -/
structure RosterEntry where
  id : Nat
  display_name : String
  list_type : String
  original_list_type : String
deriving Repr, DecidableEq

/-- The in-game flag of a standby entry (App.jsx:393): the entry
started on standby but currently plays under another list type. -/
def inGame (e : RosterEntry) : Bool :=
  e.original_list_type == "standby" && !(e.list_type == "standby")

/-- Whether the standby view offers removal of an entry
(App.jsx:401, 404): removal is withheld exactly for in-game entries. -/
def standbyCanRemove (e : RosterEntry) : Bool :=
  !inGame e

/-- A team member as stored in the teams state (TeamsView). -/
structure TeamMember where
  id : Nat
  display_name : String
deriving Repr, DecidableEq

/-- A team of the teams state; ids are compared through String(t.id) in
the code, so they are modelled as strings (freshly added teams get ids
of the form new-timestamp). -/
structure Team where
  id : String
  name : String
  members : List TeamMember
deriving Repr, DecidableEq

/-- A draggable person of the union of participants and standby
(allPeople in TeamsView). -/
structure Person where
  id : Nat
  display_name : String
  isStandby : Bool
deriving Repr, DecidableEq

/-- Branch of TeamsView.handleDragEnd for a drop onto the unassigned
zone (App.jsx:627-633): the entry is filtered out of every team and
teams left with no members and a falsy id are dropped. -/
def dropToUnassigned (teams : List Team) (entryId : Nat) : List Team :=
  (teams.map (fun t =>
    { id := t.id, name := t.name,
      members := t.members.filter (fun m => !(m.id == entryId)) })).filter
    (fun t => decide (t.members.length > 0) || t.id != "")

/-- Branch of TeamsView.handleDragEnd for a drop onto another player
(App.jsx:634-656): the two entries exchange their team placements. -/
def playerSwap (teams : List Team) (allPeople : List Person)
    (entryId targetId : Nat) : List Team :=
  if entryId == targetId then teams
  else
    match allPeople.find? (fun p => p.id == entryId),
          allPeople.find? (fun p => p.id == targetId) with
    | some person, some targetPerson =>
      let currentTeam := teams.find? (fun t => t.members.any (fun m => m.id == entryId))
      let targetTeam := teams.find? (fun t => t.members.any (fun m => m.id == targetId))
      teams.map (fun t =>
        let isCurrent := match currentTeam with
          | some c => t.id == c.id
          | none => false
        let isTarget := match targetTeam with
          | some c => t.id == c.id
          | none => false
        if isCurrent && isTarget then
          { t with members := t.members.map (fun m =>
              if m.id == entryId then
                { id := targetPerson.id, display_name := targetPerson.display_name }
              else if m.id == targetId then
                { id := person.id, display_name := person.display_name }
              else m) }
        else if isCurrent then
          { t with members := t.members.map (fun m =>
              if m.id == entryId then
                { id := targetPerson.id, display_name := targetPerson.display_name }
              else m) }
        else if isTarget then
          { t with members := t.members.map (fun m =>
              if m.id == targetId then
                { id := person.id, display_name := person.display_name }
              else m) }
        else t)
    | _, _ => teams

/-- Branch of TeamsView.handleDragEnd for a drop onto a team zone
(App.jsx:657-684): rejected without change when the target team is
missing or already holds maxPerTeam members; otherwise the entry is
appended to the target team and removed from its previous team. -/
def dropOnTeam (teams : List Team) (allPeople : List Person) (maxPerTeam : Nat)
    (entryId : Nat) (teamId : String) : List Team :=
  match teams.find? (fun t => t.id == teamId) with
  | none => teams
  | some targetTeam =>
    if decide (targetTeam.members.length ≥ maxPerTeam) then teams
    else
      let currentTeam := teams.find? (fun t => t.members.any (fun m => m.id == entryId))
      match allPeople.find? (fun p => p.id == entryId) with
      | none => teams
      | some person =>
        match currentTeam with
        | some current =>
          teams.map (fun t =>
            if t.id == teamId then
              if t.members.any (fun m => m.id == entryId) then t
              else { t with members := t.members ++
                      [{ id := person.id, display_name := person.display_name }] }
            else if t.id == current.id then
              { t with members := t.members.filter (fun m => !(m.id == entryId)) }
            else t)
        | none =>
          teams.map (fun t =>
            if t.id == teamId then
              { t with members := t.members ++
                  [{ id := person.id, display_name := person.display_name }] }
            else t)

/-- The entity id the frontend reads for a slot (setWinner and
advanceOpponent, App.jsx:1751-1753 and 1783-1785). -/
def slotEntityId (isTeam : Bool) (m : Match) (slot : Nat) : Option Nat :=
  if isTeam then (if slot == 1 then m.team1_id else m.team2_id)
  else (if slot == 1 then nvlNat m.manual_entry1_id m.player1_id
        else nvlNat m.manual_entry2_id m.player2_id)

/-- The id fields belonging to a slot of the match snapshot. -/
def slotIdFields (slot : Nat) : List String :=
  if slot == 1 then ["team1_id", "manual_entry1_id", "player1_id"]
  else ["team2_id", "manual_entry2_id", "player2_id"]

/-- The PATCH body the frontend advanceOpponent builds
(App.jsx:1778-1797): the winner field set, its value, and the slot id
field written null. -/
structure AdvancePatch where
  winnerField : String
  winnerId : Nat
  clearField : String
deriving Repr, DecidableEq

/-- Frontend advanceOpponent (App.jsx:1778-1813) reduced to the request
body it issues: none when the opposite slot holds no entity (the early
return), otherwise the body declaring the opposite occupant the winner
and nulling the designated slot. -/
def advanceOpponent (isTeam : Bool) (m : Match) (slot : Nat) : Option AdvancePatch :=
  let opponentSlot : Nat := if slot == 1 then 2 else 1
  let winnerId : Option Nat := slotEntityId isTeam m opponentSlot
  if !natTruthy winnerId then none
  else
    let wf : String :=
      if isTeam then "winner_team_id"
      else if m.manual_entry1_id.isSome || m.manual_entry2_id.isSome then
        "winner_manual_entry_id"
      else "winner_player_id"
    let cf : String :=
      if slot == 1 then
        (if isTeam then "team1_id"
         else if m.manual_entry1_id.isSome then "manual_entry1_id"
         else "player1_id")
      else
        (if isTeam then "team2_id"
         else if m.manual_entry2_id.isSome then "manual_entry2_id"
         else "player2_id")
    some { winnerField := wf, winnerId := winnerId.getD 0, clearField := cf }

/-- Displayed round number of BracketView.renderRound (App.jsx:1212):
losers rounds stored at 10 or above are shown with the offset removed. -/
def renderRoundDisplay (sectionLabel : String) (roundNum : Nat) : Nat :=
  if sectionLabel == "Losers" && decide (roundNum ≥ 10) then roundNum - 10
  else roundNum

/-- Round filter of the winners-bracket views BracketVisual and
BracketTree (App.jsx:945 and 1026): only entries with round key below 10
are rendered. -/
def winnersRoundEntries (rounds : List (Nat × List Match)) :
    List (Nat × List Match) :=
  rounds.filter (fun p => decide (p.1 < 10))

/-- Grand-finals section of BracketView.renderBracket
(App.jsx:1334-1338): when the section is non-empty it is rendered by a
single renderRound call under the fixed sentinel round 21. -/
def grandFinalsRender (gf : List Match) : Option (String × Nat) :=
  if decide (gf.length > 0) then some (("Grand Finals", 21)) else none

/-- Modelled from the spec: the losers-bracket storage convention of
section 4.3 step 6 — stored round numbers are offset by +10 from the
logical round.  The generator itself lives in the backend service,
which is not under src. -/
def losersStoredRound (logical : Nat) : Nat :=
  logical + 10

/-- The disabled condition of the Generate Bracket button
(App.jsx:2369). -/
def generateDisabled (bracketType : String) (bracketCount : Nat) : Bool :=
  bracketCount == 0 || (bracketType == "double_elim" && decide (bracketCount < 8))

/-- Guard of the frontend swapSlots (App.jsx:1715): the request is
skipped when source and target position coincide. -/
def swapSlotsRequestSkipped (fromMatchId fromSlot toMatchId toSlot : Nat) : Bool :=
  fromMatchId == toMatchId && fromSlot == toSlot

/-- Modelled from the spec: the error taxonomy of section 7.  The
backend service raising these is not under src. -/
inductive EngineError where
  | validation (msg : String)
  | notFound
  | capacity (msg : String)
  | precondition (msg : String)
  | conflict (msg : String)
  | forbidden
  | noOp
  | insufficientEntrants
deriving Repr, DecidableEq

/-- Modelled from the spec: a match of the engine state (section 3),
slots and winner holding at most one entity reference each. -/
structure EMatch where
  id : Nat
  slot1 : Option Nat
  slot2 : Option Nat
  winner : Option Nat
  parent_match_id : Option Nat
  parent_match_slot : Nat
deriving Repr, DecidableEq

/-- Slot read of an engine match; any slot other than 1 designates
slot 2, mirroring the two-way conditionals of the code. -/
def getSlot (m : EMatch) (slot : Nat) : Option Nat :=
  if slot == 1 then m.slot1 else m.slot2

/-- Slot write of an engine match. -/
def setSlotOf (m : EMatch) (slot : Nat) (v : Option Nat) : EMatch :=
  if slot == 1 then { m with slot1 := v } else { m with slot2 := v }

/-- Lookup of a match by id in the engine state. -/
def findMatch (b : List EMatch) (mid : Nat) : Option EMatch :=
  b.find? (fun m => m.id == mid)

/-- Pointwise update of the match carrying the given id. -/
def updateMatch (b : List EMatch) (mid : Nat) (f : EMatch → EMatch) : List EMatch :=
  b.map (fun m => if m.id == mid then f m else m)

/-- Record update of the winner field, named so that state lemmas can
speak about it. -/
def withWinner (x : EMatch) (w : Option Nat) : EMatch :=
  { x with winner := w }

/-- Whether the parent of a match has itself reached the decided
state. -/
def parentDecided (b : List EMatch) (m : EMatch) : Bool :=
  match m.parent_match_id with
  | none => false
  | some pid =>
    match findMatch b pid with
    | none => false
    | some p => p.winner.isSome

/-- Modelled from the spec: setWinner of section 4.4 — requires both
slots filled, otherwise a precondition error with the documented
message; on success the entity in the chosen slot becomes the winner
and is propagated into the designated slot of the parent match; a
conflicting overwrite is refused once the parent has itself decided.
The backend endpoint implementing this is not under src. -/
def setWinner (b : List EMatch) (mid slot : Nat) : Except EngineError (List EMatch) :=
  match findMatch b mid with
  | none => .error .notFound
  | some m =>
    if m.slot1.isNone || m.slot2.isNone then
      .error (.precondition ("cannot set a winner before both slots are filled"))
    else
      let w := getSlot m slot
      if m.winner.isSome && !(m.winner == w) && parentDecided b m then
        .error (.conflict ("downstream match already decided on this result; clear it first"))
      else
        let b1 := updateMatch b mid (fun x => withWinner x w)
        match m.parent_match_id with
        | none => .ok b1
        | some pid => .ok (updateMatch b1 pid (fun p => setSlotOf p m.parent_match_slot w))

/-- Modelled from the spec: clearWinner of section 4.4 — reverts the
match to ready and clears the value it had written into the parent
slot, unless the parent match has itself decided, in which case the
operation fails with a conflict.  The backend endpoint implementing
this is not under src. -/
def clearWinner (b : List EMatch) (mid : Nat) : Except EngineError (List EMatch) :=
  match findMatch b mid with
  | none => .error .notFound
  | some m =>
    match m.winner with
    | none => .error (.precondition ("match has no winner to clear"))
    | some _ =>
      match m.parent_match_id with
      | none => .ok (updateMatch b mid (fun x => withWinner x none))
      | some pid =>
        if parentDecided b m then
          .error (.conflict ("downstream match already decided on this result; clear it first"))
        else
          .ok (updateMatch
                (updateMatch b mid (fun x => withWinner x none))
                pid (fun p => setSlotOf p m.parent_match_slot none))

/-- Modelled from the spec: swapSlots of section 4.4 — fails with a
no-op error when source and target position coincide, otherwise
exchanges the two slot contents atomically.  The backend endpoint
implementing this is not under src. -/
def swapSlots (b : List EMatch) (ma sa mb sb : Nat) : Except EngineError (List EMatch) :=
  if ma == mb && sa == sb then .error .noOp
  else
    match findMatch b ma, findMatch b mb with
    | some A, some B =>
      let va := getSlot A sa
      let vb := getSlot B sb
      .ok (updateMatch
            (updateMatch b ma (fun m => setSlotOf m sa vb))
            mb (fun m => setSlotOf m sb va))
    | _, _ => .error .notFound

/-- Modelled from the spec: the entrant-minimum gate of generation
(section 4.3 step 1) — below two entrants for single elimination or
below eight for double elimination the generator rejects with the
insufficient-entrants error.  The generator lives in the backend
service, which is not under src. -/
def generateMinimumCheck (bracketType : String) (n : Nat) : Except EngineError Unit :=
  if bracketType == "double_elim" then
    (if n < 8 then .error .insufficientEntrants else .ok ())
  else
    (if n < 2 then .error .insufficientEntrants else .ok ())

/-- Slot content read through the state, for stating swap properties. -/
def readSlot (b : List EMatch) (mid slot : Nat) : Option Nat :=
  match findMatch b mid with
  | none => none
  | some m => getSlot m slot

/-- Concrete match with a recorded winner and both slots holding
entities, used by witnesses. -/
def wMatchA : Match :=
  { id := 1, round_num := 1, bracket_section := none,
    team1_name := some ("A"), team2_name := some ("B"),
    player1_name := none, player2_name := none,
    team1_id := some 11, team2_id := some 12,
    manual_entry1_id := none, manual_entry2_id := none,
    player1_id := none, player2_id := none,
    winner_name := some ("A"), winner_team_id := some 11,
    parent_match_id := none, parent_match_slot := 0,
    inferred_winner := false }

/-- Concrete 1v1 match with two manual entrants and no winner, used by
witnesses. -/
def wMatchB : Match :=
  { id := 2, round_num := 1, bracket_section := none,
    team1_name := none, team2_name := none,
    player1_name := some ("P"), player2_name := some ("Q"),
    team1_id := none, team2_id := none,
    manual_entry1_id := some 5, manual_entry2_id := some 6,
    player1_id := none, player2_id := none,
    winner_name := none, winner_team_id := none,
    parent_match_id := none, parent_match_slot := 0,
    inferred_winner := false }

/-- Concrete match whose slot 1 is occupied while slot 2 is empty, used
by witnesses. -/
def wMatchC : Match :=
  { id := 3, round_num := 1, bracket_section := none,
    team1_name := none, team2_name := none,
    player1_name := some ("P"), player2_name := none,
    team1_id := none, team2_id := none,
    manual_entry1_id := some 5, manual_entry2_id := none,
    player1_id := none, player2_id := none,
    winner_name := none, winner_team_id := none,
    parent_match_id := none, parent_match_slot := 0,
    inferred_winner := false }

/-- Concrete undecided match feeding slot 1 of match 2, used by
witnesses: slot 1 of the parent carries the advanced name Alpha. -/
def wParent : Match :=
  { id := 9, round_num := 2, bracket_section := none,
    team1_name := some ("Alpha"), team2_name := some ("TBD"),
    player1_name := none, player2_name := none,
    team1_id := some 21, team2_id := none,
    manual_entry1_id := none, manual_entry2_id := none,
    player1_id := none, player2_id := none,
    winner_name := none, winner_team_id := none,
    parent_match_id := none, parent_match_slot := 0,
    inferred_winner := false }

/-- Concrete child of wParent without a recorded winner, used by
witnesses. -/
def wChild : Match :=
  { id := 4, round_num := 1, bracket_section := none,
    team1_name := some ("C"), team2_name := some ("D"),
    player1_name := none, player2_name := none,
    team1_id := some 31, team2_id := some 32,
    manual_entry1_id := none, manual_entry2_id := none,
    player1_id := none, player2_id := none,
    winner_name := none, winner_team_id := none,
    parent_match_id := some 9, parent_match_slot := 1,
    inferred_winner := false }

/-- Concrete team list at capacity 2 used by witnesses: team t1 is
full, team t2 has one free seat. -/
def wTeams : List Team :=
  [⟨"t1", "T1", [⟨1, "a"⟩, ⟨2, "b"⟩]⟩, ⟨"t2", "T2", [⟨3, "c"⟩]⟩]

/-- Concrete drag pool used by witnesses. -/
def wPeople : List Person :=
  [⟨1, "a", false⟩, ⟨2, "b", false⟩, ⟨3, "c", false⟩, ⟨4, "d", true⟩]

/-- Concrete engine match, ready with entities 10 and 20, feeding slot 1
of match 2; used by witnesses. -/
def wem1 : EMatch := ⟨1, some 10, some 20, none, some 2, 1⟩

/-- Concrete empty engine match with no parent; used by witnesses. -/
def wem2 : EMatch := ⟨2, none, none, none, none, 0⟩

/-- Concrete engine match missing its second slot, feeding slot 2 of
match 2; used by witnesses. -/
def wem3 : EMatch := ⟨3, some 30, none, none, some 2, 2⟩

/-- Concrete two-match engine bracket; used by witnesses. -/
def wEB : List EMatch := [wem1, wem2]

/-- Concrete engine bracket whose first match lacks a slot; used by
witnesses. -/
def wEB2 : List EMatch := [wem3, wem2]

/-- Helper towards C2: per match, the frontend enrichment agrees with
the specification restatement of the inferred-winner display rule. -/
lemma enrichMatch_eq_view (all : List Match) (m : Match) :
    enrichMatch all m = inferredWinnerView all m := by
  unfold enrichMatch inferredWinnerView
  cases hp : m.parent_match_id with
  | none => simp [natTruthy]
  | some n =>
    by_cases hn : n = 0
    · subst hn; simp [natTruthy]
    · by_cases hw : strTruthy m.winner_name
      · simp [hw, hn, natTruthy]
      · simp only [hw, hn, natTruthy, Bool.not_false, Bool.true_and, if_neg, Option.getD_some]
        simp [hn]
        cases hlk : byIdLookup all n with
        | none => simp
        | some parent =>
          cases hnm : advancedNameOf parent m.parent_match_slot with
          | none => simp [isRealAdvanced, strTruthy, hnm]
          | some s => simp [isRealAdvanced, strTruthy, hnm]

/-- C2: inferred-winner display.  The enrichment equals, match for
match, the view prescribed by the specification (no recorded winner and
a resolving parent whose designated slot holds a real name yields that
name with the inferred flag; every other match is unchanged), and the
round keys of the input are preserved.  The enrichment is a pure
function of the input, so the input rounds themselves are untouched. -/
theorem inferred_winner_enrichment (rounds : List (String × List Match)) :
    enrichRoundsWithInferredWinners rounds =
      rounds.map (fun p =>
        (p.1, p.2.map (inferredWinnerView ((rounds.map Prod.snd).flatten)))) ∧
    (enrichRoundsWithInferredWinners rounds).map Prod.fst = rounds.map Prod.fst := by
  constructor
  · unfold enrichRoundsWithInferredWinners
    refine List.map_congr_left (fun p hp => ?_)
    exact congrArg (Prod.mk p.1) (List.map_congr_left (fun m hm => enrichMatch_eq_view _ m))
  · simp [enrichRoundsWithInferredWinners]

/-- C5: the standby view blocks removal exactly for entries whose
original_list_type is standby while their list_type is not. -/
theorem standby_remove_locked_iff (e : RosterEntry) :
    standbyCanRemove e = false ↔
      (e.original_list_type = "standby" ∧ e.list_type ≠ "standby") := by
  simp [standbyCanRemove, inGame]

/-- C9: entrant minimums of bracket generation.  The modelled generator
gate rejects with the insufficient-entrants error exactly below two
entrants for single elimination and below eight for double elimination,
and the frontend Generate button is disabled for double elimination
exactly below eight entrants. -/
theorem bracket_generation_minimums (n : Nat) :
    (generateMinimumCheck ("single_elim") n = .error .insufficientEntrants ↔ n < 2) ∧
    (generateMinimumCheck ("single_elim") n = .ok () ↔ 2 ≤ n) ∧
    (generateMinimumCheck ("double_elim") n = .error .insufficientEntrants ↔ n < 8) ∧
    (generateMinimumCheck ("double_elim") n = .ok () ↔ 8 ≤ n) ∧
    (generateDisabled ("double_elim") n = true ↔ n < 8) := by
  have hs : (("single_elim" : String) == "double_elim") = false := by decide
  have hd : (("double_elim" : String) == "double_elim") = true := by decide
  refine ⟨?_, ?_, ?_, ?_, ?_⟩ <;>
    simp [generateMinimumCheck, generateDisabled, hs, hd] <;>
    omega

/-- C7: round-number storage convention.  Losers rounds stored with the
+10 offset are displayed with the offset removed, the winners views
render exactly the round entries with stored number below 10, and a
non-empty grand-finals section is rendered under the fixed sentinel
round 21. -/
theorem round_number_offset_convention (r : Nat) (rounds : List (Nat × List Match))
    (p : Nat × List Match) (gf : List Match) :
    (10 ≤ r → renderRoundDisplay ("Losers") r = r - 10) ∧
    (renderRoundDisplay ("Losers") (losersStoredRound r) = r) ∧
    (p ∈ winnersRoundEntries rounds ↔ p ∈ rounds ∧ p.1 < 10) ∧
    (grandFinalsRender gf = some (("Grand Finals", 21)) ↔ gf ≠ []) := by
  have hl : (("Losers" : String) == "Losers") = true := by decide
  refine ⟨?_, ?_, ?_, ?_⟩
  · intro h
    simp [renderRoundDisplay, hl, h]
  · simp [renderRoundDisplay, losersStoredRound, hl]
  · simp [winnersRoundEntries, List.mem_filter]
  · cases gf with
    | nil => simp [grandFinalsRender]
    | cons a l => simp [grandFinalsRender]

/-- Witness for C7 at stored losers round 12, a two-round map, and a
non-empty grand-finals section. -/
theorem round_number_offset_convention_witness :
    (10 ≤ 12 ∧ renderRoundDisplay ("Losers") 12 = 2) ∧
    renderRoundDisplay ("Losers") (losersStoredRound 12) = 12 ∧
    ((3, ([] : List Match)) ∈ winnersRoundEntries [(3, []), (11, [])]) ∧
    grandFinalsRender [wMatchA] = some (("Grand Finals", 21)) :=
  have h := round_number_offset_convention 12 [(3, []), (11, [])]
    (3, ([] : List Match)) [wMatchA]
  ⟨⟨by decide, h.1 (by decide)⟩, h.2.1,
    (h.2.2.1).mpr ⟨by decide, by decide⟩, (h.2.2.2).mpr (by decide)⟩

/-- C3: an inferred winner is never authoritative.  Over any server
payload (whose matches carry no inferred flag), a match the enrichment
marks inferred never has the Swap or Undo corrections offered, and a
match with the corrections offered has its winner recorded in the
payload itself, unchanged by enrichment, with both slots holding
entities. -/
theorem inferred_winner_not_authoritative (all : List Match) (m : Match)
    (hraw : m.inferred_winner = false) :
    ((enrichMatch all m).inferred_winner = true →
      swapUndoOffered (enrichMatch all m) = false) ∧
    (swapUndoOffered (enrichMatch all m) = true →
      strTruthy m.winner_name = true ∧
      (enrichMatch all m).winner_name = m.winner_name ∧
      bothFilled (enrichMatch all m) = true) := by
  constructor
  · intro hinf
    simp [swapUndoOffered, hinf]
  · intro hoff
    have hni : (enrichMatch all m).inferred_winner = false := by
      by_contra hc
      have hct : (enrichMatch all m).inferred_winner = true := by
        revert hc; cases (enrichMatch all m).inferred_winner <;> simp
      simp [swapUndoOffered, hct] at hoff
    have hsame : enrichMatch all m = m := by
      unfold enrichMatch at hni ⊢
      by_cases h1 : (!strTruthy m.winner_name && natTruthy m.parent_match_id) = true
      · rw [if_pos h1] at hni ⊢
        cases hlk : byIdLookup all (m.parent_match_id.getD 0) with
        | none => simp
        | some parent =>
          rw [hlk] at hni
          by_cases h2 : isRealAdvanced (advancedNameOf parent m.parent_match_slot) = true
          · simp [h2] at hni
          · simp [h2]
      · rw [if_neg h1] at hni ⊢
    rw [hsame] at hoff ⊢
    simp [swapUndoOffered, hraw] at hoff
    exact ⟨hoff.1, rfl, hoff.2⟩

/-- Witness for C3: an inferred child match has no corrections offered,
and a match with corrections offered has a recorded winner. -/
theorem inferred_winner_not_authoritative_witness :
    swapUndoOffered (enrichMatch [wParent, wChild] wChild) = false ∧
    (strTruthy wMatchA.winner_name = true ∧
      (enrichMatch [wMatchA] wMatchA).winner_name = wMatchA.winner_name ∧
      bothFilled (enrichMatch [wMatchA] wMatchA) = true) :=
  ⟨(inferred_winner_not_authoritative [wParent, wChild] wChild (by decide)).1 (by decide),
    (inferred_winner_not_authoritative [wMatchA] wMatchA (by decide)).2 (by decide)⟩

/-- C8: advanceOpponent on a vacated slot.  When the other slot holds
no entity the frontend issues no request; when it does, the request
declares that occupant the winner and writes null into an id field of
the vacated slot, with no BYE required anywhere. -/
theorem advance_on_dropout_spec (isTeam : Bool) (m : Match) (slot : Nat) :
    (natTruthy (slotEntityId isTeam m (if slot == 1 then 2 else 1)) = false →
      advanceOpponent isTeam m slot = none) ∧
    (natTruthy (slotEntityId isTeam m (if slot == 1 then 2 else 1)) = true →
      ∃ p, advanceOpponent isTeam m slot = some p ∧
        p.winnerId = (slotEntityId isTeam m (if slot == 1 then 2 else 1)).getD 0 ∧
        p.clearField ∈ slotIdFields slot) := by
  constructor
  · intro h
    simp_all [advanceOpponent]
  · intro h
    unfold advanceOpponent
    simp only [h, Bool.not_true, Bool.false_eq_true, if_false]
    refine ⟨_, rfl, rfl, ?_⟩
    by_cases hs : (slot == 1) = true <;>
      cases isTeam <;>
      simp [slotIdFields, hs] <;>
      (try split) <;> simp <;> tauto

/-- Witness for C8: a 1v1 match with both entrants yields the advance
request, and a match with an empty opposite slot yields none. -/
theorem advance_on_dropout_spec_witness :
    (∃ p, advanceOpponent false wMatchB 1 = some p ∧
      p.winnerId = (slotEntityId false wMatchB (if (1 : Nat) == 1 then 2 else 1)).getD 0 ∧
      p.clearField ∈ slotIdFields 1) ∧
    advanceOpponent false wMatchC 1 = none :=
  ⟨(advance_on_dropout_spec false wMatchB 1).2 (by decide),
    (advance_on_dropout_spec false wMatchC 1).1 (by decide)⟩


/-- Helper for C6: the team found by id carries that id. -/
lemma team_id_eq_of_find? {teams : List Team} {teamId : String} {tt : Team}
    (h : teams.find? (fun t => t.id == teamId) = some tt) : tt.id = teamId := by
  have := List.find?_some h
  simpa using this


/-- C6: team capacity invariant.  Starting from a team list whose
members never exceed the capacity (with the unique team ids the store
guarantees), each drag-editing branch of TeamsView.handleDragEnd
(unassign, player swap, drop onto a team) preserves the bound, and a
drop onto a team already at capacity is rejected without change. -/
theorem team_capacity_invariant (cap : Nat) (teams : List Team) (allPeople : List Person)
    (entryId targetId : Nat) (teamId : String)
    (hcap : ∀ t ∈ teams, t.members.length ≤ cap)
    (hids : (teams.map Team.id).Nodup) :
    (∀ t ∈ dropToUnassigned teams entryId, t.members.length ≤ cap) ∧
    (∀ t ∈ playerSwap teams allPeople entryId targetId, t.members.length ≤ cap) ∧
    (∀ t ∈ dropOnTeam teams allPeople cap entryId teamId, t.members.length ≤ cap) ∧
    (∀ tt, teams.find? (fun t => t.id == teamId) = some tt →
      cap ≤ tt.members.length →
      dropOnTeam teams allPeople cap entryId teamId = teams) := by
  refine ⟨?_, ?_, ?_, ?_⟩
  · intro t ht
    unfold dropToUnassigned at ht
    obtain ⟨ht1, _⟩ := List.mem_filter.mp ht
    obtain ⟨t0, ht0, rfl⟩ := List.mem_map.mp ht1
    calc (t0.members.filter _).length ≤ t0.members.length := List.length_filter_le _ _
      _ ≤ cap := hcap t0 ht0
  · intro t ht
    unfold playerSwap at ht
    split at ht
    · exact hcap t ht
    · split at ht
      · obtain ⟨t0, ht0, rfl⟩ := List.mem_map.mp ht
        have h0 := hcap t0 ht0
        dsimp only
        split
        · simpa using h0
        · split
          · simpa using h0
          · split
            · simpa using h0
            · exact h0
      · exact hcap t ht
  · intro t ht
    unfold dropOnTeam at ht
    rcases hft : teams.find? (fun t => t.id == teamId) with _ | tt
    · rw [hft] at ht; exact hcap t ht
    · simp only [hft] at ht
      by_cases hge : decide (tt.members.length ≥ cap) = true
      · rw [if_pos hge] at ht; exact hcap t ht
      · rw [if_neg hge] at ht
        have hlt : tt.members.length < cap := by
          simpa using hge
        have hmemT : tt ∈ teams := List.mem_of_find?_eq_some hft
        have hidT : tt.id = teamId := team_id_eq_of_find? hft
        rcases hp : allPeople.find? (fun p => p.id == entryId) with _ | person
        · rw [hp] at ht; exact hcap t ht
        · simp only [hp] at ht
          rcases hcur : teams.find? (fun t => t.members.any (fun m => m.id == entryId)) with _ | current
          · simp only [hcur] at ht
            obtain ⟨t0, ht0, rfl⟩ := List.mem_map.mp ht
            have h0 := hcap t0 ht0
            split
            · next hid0 =>
              have ht0T : t0 = tt := by
                refine List.inj_on_of_nodup_map hids ht0 hmemT ?_
                have : t0.id = teamId := by simpa using hid0
                rw [this, hidT]
              subst ht0T
              simp
              omega
            · exact h0
          · simp only [hcur] at ht
            obtain ⟨t0, ht0, rfl⟩ := List.mem_map.mp ht
            have h0 := hcap t0 ht0
            split
            · next hid0 =>
              split
              · exact h0
              · have ht0T : t0 = tt := by
                  refine List.inj_on_of_nodup_map hids ht0 hmemT ?_
                  have : t0.id = teamId := by simpa using hid0
                  rw [this, hidT]
                subst ht0T
                simp
                omega
            · split
              · calc (t0.members.filter _).length ≤ t0.members.length := List.length_filter_le _ _
                  _ ≤ cap := h0
              · exact h0
  · intro tt hft hge
    unfold dropOnTeam
    simp only [hft]
    have hd : decide (tt.members.length ≥ cap) = true := by simpa using hge
    rw [if_pos hd]


/-- Witness for C6 at capacity 2 with a full team, a one-seat team and
a four-person pool. -/
theorem team_capacity_invariant_witness :
    (∀ t ∈ wTeams, t.members.length ≤ 2) ∧ ((wTeams.map Team.id).Nodup) ∧
    ((∀ t ∈ dropToUnassigned wTeams 4, t.members.length ≤ 2) ∧
      (∀ t ∈ playerSwap wTeams wPeople 4 3, t.members.length ≤ 2) ∧
      (∀ t ∈ dropOnTeam wTeams wPeople 2 4 ("t2"), t.members.length ≤ 2) ∧
      (∀ tt, wTeams.find? (fun t => t.id == "t2") = some tt →
        2 ≤ tt.members.length →
        dropOnTeam wTeams wPeople 2 4 ("t2") = wTeams)) :=
  ⟨by decide, by decide,
    team_capacity_invariant 2 wTeams wPeople 4 3 ("t2") (by decide) (by decide)⟩


/-- Engine state lemma: slot writes preserve the match id. -/
lemma setSlotOf_id (m : EMatch) (s : Nat) (v : Option Nat) :
    (setSlotOf m s v).id = m.id := by
  unfold setSlotOf; split <;> rfl

/-- Engine state lemma: slot writes preserve the winner. -/
lemma setSlotOf_winner (m : EMatch) (s : Nat) (v : Option Nat) :
    (setSlotOf m s v).winner = m.winner := by
  unfold setSlotOf; split <;> rfl

/-- Engine state lemma: slot writes preserve the parent link. -/
lemma setSlotOf_parent (m : EMatch) (s : Nat) (v : Option Nat) :
    (setSlotOf m s v).parent_match_id = m.parent_match_id := by
  unfold setSlotOf; split <;> rfl

lemma withWinner_id (m : EMatch) (w : Option Nat) : (withWinner m w).id = m.id := rfl

lemma withWinner_winner (m : EMatch) (w : Option Nat) : (withWinner m w).winner = w := rfl

lemma withWinner_parent (m : EMatch) (w : Option Nat) :
    (withWinner m w).parent_match_id = m.parent_match_id := rfl

lemma withWinner_pslot (m : EMatch) (w : Option Nat) :
    (withWinner m w).parent_match_slot = m.parent_match_slot := rfl

lemma getSlot_setSlotOf_same (m : EMatch) (s : Nat) (v : Option Nat) :
    getSlot (setSlotOf m s v) s = v := by
  unfold setSlotOf getSlot; by_cases h : (s == 1) = true <;> simp [h]

lemma getSlot_setSlotOf_ne (m : EMatch) (s t : Nat) (v : Option Nat)
    (hs : s = 1 ∨ s = 2) (ht : t = 1 ∨ t = 2) (hne : s ≠ t) :
    getSlot (setSlotOf m t v) s = getSlot m s := by
  rcases hs with rfl | rfl <;> rcases ht with rfl | rfl <;>
    simp_all [getSlot, setSlotOf]

lemma setSlotOf_setSlotOf (m : EMatch) (s : Nat) (v w : Option Nat) :
    setSlotOf (setSlotOf m s v) s w = setSlotOf m s w := by
  unfold setSlotOf; by_cases h : (s == 1) = true <;> simp [h]

lemma setSlotOf_none_eta (m : EMatch) (s : Nat) (h : getSlot m s = none) :
    setSlotOf m s none = m := by
  unfold setSlotOf getSlot at *
  cases m
  by_cases hs : (s == 1) = true <;> simp_all

lemma winner_none_eta (m : EMatch) (h : m.winner = none) :
    withWinner m none = m := by
  cases m; simp_all [withWinner]

lemma findMatch_id {b : List EMatch} {mid : Nat} {m : EMatch}
    (h : findMatch b mid = some m) : m.id = mid := by
  have := List.find?_some h
  simpa using this

lemma findMatch_updateMatch (b : List EMatch) (mid k : Nat) (f : EMatch → EMatch)
    (hf : ∀ x, (f x).id = x.id) :
    findMatch (updateMatch b mid f) k =
      (findMatch b k).map (fun x => if x.id == mid then f x else x) := by
  induction b with
  | nil => rfl
  | cons a l ih =>
    unfold updateMatch findMatch at *
    have hcomp : ((fun m : EMatch => m.id == k) ∘ fun m => if m.id = mid then f m else m)
        = (fun m : EMatch => m.id == k) := by
      funext m
      by_cases h : m.id = mid <;> simp [h, hf]
    by_cases hm : (a.id == mid) = true
    · by_cases hk : (a.id == k) = true
      · simp [List.find?, hm, hk, hf]
        simp [show a.id = mid by simpa using hm]
      · simp [List.find?, hm, hk, hf]
        rw [hcomp]
    · by_cases hk : (a.id == k) = true
      · simp [List.find?, hm, hk]
        simp [show ¬ a.id = mid by simpa using hm]
      · simp [List.find?, hm, hk]
        rw [hcomp]

lemma setWinner_ok (b : List EMatch) (mid slot pid : Nat) (m : EMatch)
    (hm : findMatch b mid = some m)
    (h1 : m.slot1.isSome = true) (h2 : m.slot2.isSome = true)
    (hw : m.winner = none)
    (hp : m.parent_match_id = some pid) :
    setWinner b mid slot =
      .ok (updateMatch (updateMatch b mid (fun x => withWinner x (getSlot m slot)))
        pid (fun q => setSlotOf q m.parent_match_slot (getSlot m slot))) := by
  unfold setWinner
  simp only [hm]
  rw [if_neg (by
    simp only [Bool.or_eq_true, Option.isNone_iff_eq_none, not_or]
    constructor
    · intro hc; rw [hc] at h1; simp at h1
    · intro hc; rw [hc] at h2; simp at h2)]
  rw [if_neg (by simp [hw])]
  simp only [hp]

lemma findMatch_setWinner_state (b : List EMatch) (mid pid : Nat) (m p : EMatch)
    (w : Option Nat) (k : Nat)
    (hm : findMatch b mid = some m) (hpm : findMatch b pid = some p)
    (hne : pid ≠ mid) :
    findMatch (updateMatch (updateMatch b mid (fun x => withWinner x w))
        pid (fun q => setSlotOf q k w)) mid = some (withWinner m w) ∧
    findMatch (updateMatch (updateMatch b mid (fun x => withWinner x w))
        pid (fun q => setSlotOf q k w)) pid = some (setSlotOf p k w) := by
  have hmid : m.id = mid := findMatch_id hm
  have hpid : p.id = pid := findMatch_id hpm
  have hidw : ∀ x : EMatch, ((fun x => withWinner x w) x).id = x.id := fun x => rfl
  have hidp : ∀ x : EMatch, ((fun q => setSlotOf q k w) x).id = x.id :=
    fun x => setSlotOf_id x k w
  constructor
  · rw [findMatch_updateMatch _ _ _ _ hidp, findMatch_updateMatch _ _ _ _ hidw, hm]
    simp [hmid, hne, Ne.symm hne, withWinner_id]
  · rw [findMatch_updateMatch _ _ _ _ hidp, findMatch_updateMatch _ _ _ _ hidw, hpm]
    simp [hpid, hne, Ne.symm hne, setSlotOf_id]


/-- C1: setWinner followed by clearWinner on the same match, with no
downstream mutation in between (the parent match undecided and its
designated slot empty beforehand, as in any reachable state where the
match is still ready), restores the entire bracket state: the match
returns to ready with both slots as before and the parent slot returns
to its pre-setWinner value, so no winner is left orphaned downstream. -/
theorem setWinner_clearWinner_round_trip
    (b : List EMatch) (mid slot pid : Nat) (m p : EMatch)
    (hids : (b.map EMatch.id).Nodup)
    (hm : findMatch b mid = some m)
    (h1 : m.slot1.isSome = true) (h2 : m.slot2.isSome = true)
    (hw : m.winner = none)
    (hp : m.parent_match_id = some pid)
    (hne : pid ≠ mid)
    (hpm : findMatch b pid = some p)
    (hpw : p.winner = none)
    (hps : getSlot p m.parent_match_slot = none) :
    ∃ b1, setWinner b mid slot = .ok b1 ∧ clearWinner b1 mid = .ok b := by
  have hmid : m.id = mid := findMatch_id hm
  have hpid : p.id = pid := findMatch_id hpm
  have hmem : m ∈ b := List.mem_of_find?_eq_some hm
  have hpmem : p ∈ b := List.mem_of_find?_eq_some hpm
  have hwsome : (getSlot m slot).isSome = true := by
    unfold getSlot; split
    · exact h1
    · exact h2
  refine ⟨_, setWinner_ok b mid slot pid m hm h1 h2 hw hp, ?_⟩
  obtain ⟨hf1, hf2⟩ := findMatch_setWinner_state b mid pid m p (getSlot m slot)
    m.parent_match_slot hm hpm hne
  obtain ⟨u, hu⟩ := Option.isSome_iff_exists.mp hwsome
  rw [hu] at hf1 hf2 ⊢
  unfold clearWinner
  simp only [hf1, withWinner_winner, withWinner_parent, withWinner_pslot, hp]
  have hpd : parentDecided
      (updateMatch (updateMatch b mid (fun x => withWinner x (some u)))
        pid (fun q => setSlotOf q m.parent_match_slot (some u)))
      (withWinner m (some u)) = false := by
    unfold parentDecided
    simp only [withWinner_parent, hp, hf2]
    simp [setSlotOf_winner, hpw]
  rw [if_neg (by simp [hpd])]
  congr 1
  unfold updateMatch
  simp only [List.map_map]
  refine (List.map_congr_left ?_).trans (List.map_id b)
  intro z hz
  simp only [Function.comp_apply]
  by_cases hz1 : (z.id == mid) = true
  · have hzid : z.id = mid := by simpa using hz1
    have hzm : z = m := List.inj_on_of_nodup_map hids hz hmem (by rw [hzid, hmid])
    subst hzm
    have hz2 : (z.id == pid) = false := by
      rw [hzid]
      simp [Ne.symm hne]
    simp only [hz1, if_true, withWinner_id, setSlotOf_id, hz2, if_false,
      Bool.false_eq_true, id_eq]
    rw [show withWinner (withWinner z (some u)) none = withWinner z none from rfl]
    exact winner_none_eta z hw
  · rw [Bool.not_eq_true] at hz1
    by_cases hz2 : (z.id == pid) = true
    · have hzid : z.id = pid := by simpa using hz2
      have hzp : z = p := List.inj_on_of_nodup_map hids hz hpmem (by rw [hzid, hpid])
      subst hzp
      simp only [hz1, hz2, if_true, if_false, setSlotOf_id, Bool.false_eq_true,
        withWinner_pslot, id_eq]
      rw [setSlotOf_setSlotOf]
      exact setSlotOf_none_eta z _ hps
    · rw [Bool.not_eq_true] at hz2
      simp only [hz1, hz2, if_false, withWinner_id, setSlotOf_id, Bool.false_eq_true,
        id_eq]


/-- C4: setWinner requires both slots filled.  With a slot missing it
fails with the documented precondition error; with both filled, the
entity of the chosen slot becomes the winner and is written into the
designated slot of the parent match. -/
theorem setWinner_precondition_spec
    (b : List EMatch) (mid slot pid : Nat) (m p : EMatch)
    (hm : findMatch b mid = some m)
    (hp : m.parent_match_id = some pid)
    (hne : pid ≠ mid)
    (hpm : findMatch b pid = some p) :
    ((m.slot1 = none ∨ m.slot2 = none) →
      setWinner b mid slot =
        .error (.precondition ("cannot set a winner before both slots are filled"))) ∧
    (m.slot1.isSome = true → m.slot2.isSome = true → m.winner = none →
      ∃ b1, setWinner b mid slot = .ok b1 ∧
        findMatch b1 mid = some (withWinner m (getSlot m slot)) ∧
        findMatch b1 pid = some (setSlotOf p m.parent_match_slot (getSlot m slot))) := by
  constructor
  · intro hc
    unfold setWinner
    simp only [hm]
    rw [if_pos (by rcases hc with h | h <;> simp [h])]
  · intro h1 h2 hw
    refine ⟨_, setWinner_ok b mid slot pid m hm h1 h2 hw hp, ?_, ?_⟩
    · exact (findMatch_setWinner_state b mid pid m p (getSlot m slot)
        m.parent_match_slot hm hpm hne).1
    · exact (findMatch_setWinner_state b mid pid m p (getSlot m slot)
        m.parent_match_slot hm hpm hne).2

/-- C10: swapSlots with identical source and target fails with the
no-op error; on distinct positions it exchanges exactly the two slot
contents, leaving every other match untouched.  The frontend guard
skips the request exactly for identical positions. -/
theorem swapSlots_spec
    (b : List EMatch) (ma sa mb sb : Nat) (A B : EMatch)
    (hA : findMatch b ma = some A) (hB : findMatch b mb = some B)
    (hsa : sa = 1 ∨ sa = 2) (hsb : sb = 1 ∨ sb = 2) :
    ((ma = mb ∧ sa = sb) → swapSlots b ma sa mb sb = .error .noOp) ∧
    (¬(ma = mb ∧ sa = sb) →
      ∃ b2, swapSlots b ma sa mb sb = .ok b2 ∧
        readSlot b2 ma sa = getSlot B sb ∧
        readSlot b2 mb sb = getSlot A sa ∧
        ∀ k, k ≠ ma → k ≠ mb → findMatch b2 k = findMatch b k) ∧
    (swapSlotsRequestSkipped ma sa mb sb = true ↔ (ma = mb ∧ sa = sb)) := by
  have hAid : A.id = ma := findMatch_id hA
  have hBid : B.id = mb := findMatch_id hB
  have hid1 : ∀ x : EMatch, ((fun x => setSlotOf x sa (getSlot B sb)) x).id = x.id :=
    fun x => setSlotOf_id x sa (getSlot B sb)
  have hid2 : ∀ x : EMatch, ((fun x => setSlotOf x sb (getSlot A sa)) x).id = x.id :=
    fun x => setSlotOf_id x sb (getSlot A sa)
  refine ⟨?_, ?_, ?_⟩
  · rintro ⟨rfl, rfl⟩
    unfold swapSlots
    simp
  · intro hnot
    by_cases hmm : ma = mb
    · subst hmm
      have hss : sa ≠ sb := fun hc => hnot ⟨rfl, hc⟩
      have hAB : A = B := Option.some_inj.mp (hA.symm.trans hB)
      subst hAB
      unfold swapSlots
      rw [if_neg (by simp [hss])]
      simp only [hA]
      refine ⟨_, rfl, ?_, ?_, ?_⟩
      · unfold readSlot
        rw [findMatch_updateMatch _ _ _ _ hid2, findMatch_updateMatch _ _ _ _ hid1, hA]
        simp [hAid, setSlotOf_id]
        rw [getSlot_setSlotOf_ne _ sa sb _ hsa hsb hss, getSlot_setSlotOf_same]
      · unfold readSlot
        rw [findMatch_updateMatch _ _ _ _ hid2, findMatch_updateMatch _ _ _ _ hid1, hA]
        simp [hAid, setSlotOf_id]
        rw [getSlot_setSlotOf_same]
      · intro k hka hkb
        rw [findMatch_updateMatch _ _ _ _ hid2, findMatch_updateMatch _ _ _ _ hid1]
        cases hfk : findMatch b k with
        | none => simp
        | some z =>
          have hzid : z.id = k := findMatch_id hfk
          simp [hzid, hka, hkb]
    · unfold swapSlots
      rw [if_neg (by simp only [Bool.and_eq_true, beq_iff_eq]; exact hnot)]
      simp only [hA, hB]
      refine ⟨_, rfl, ?_, ?_, ?_⟩
      · unfold readSlot
        rw [findMatch_updateMatch _ _ _ _ hid2, findMatch_updateMatch _ _ _ _ hid1, hA]
        simp [hAid, hmm, setSlotOf_id, getSlot_setSlotOf_same]
      · unfold readSlot
        rw [findMatch_updateMatch _ _ _ _ hid2, findMatch_updateMatch _ _ _ _ hid1, hB]
        have hmm2 : ¬ mb = ma := fun hc => hmm hc.symm
        simp [hBid, hmm2, setSlotOf_id, getSlot_setSlotOf_same]
      · intro k hka hkb
        rw [findMatch_updateMatch _ _ _ _ hid2, findMatch_updateMatch _ _ _ _ hid1]
        cases hfk : findMatch b k with
        | none => simp
        | some z =>
          have hzid : z.id = k := findMatch_id hfk
          simp [hzid, hka, hkb]
  · simp only [swapSlotsRequestSkipped, Bool.and_eq_true, beq_iff_eq]


/-- Witness for C1 on the concrete two-match bracket. -/
theorem setWinner_clearWinner_round_trip_witness :
    ((wEB.map EMatch.id).Nodup ∧ findMatch wEB 1 = some wem1 ∧ wem1.winner = none) ∧
    (∃ b1, setWinner wEB 1 1 = .ok b1 ∧ clearWinner b1 1 = .ok wEB) :=
  ⟨⟨by decide, by decide, by decide⟩,
    setWinner_clearWinner_round_trip wEB 1 1 2 wem1 wem2 (by decide) (by decide)
      (by decide) (by decide) (by decide) (by decide) (by decide) (by decide)
      (by decide) (by decide)⟩

/-- Witness for C4: the documented error on a half-filled match and the
success path with propagation on a ready match. -/
theorem setWinner_precondition_spec_witness :
    setWinner wEB2 3 1 =
      .error (.precondition ("cannot set a winner before both slots are filled")) ∧
    (∃ b1, setWinner wEB 1 1 = .ok b1 ∧
      findMatch b1 1 = some (withWinner wem1 (getSlot wem1 1)) ∧
      findMatch b1 2 = some (setSlotOf wem2 wem1.parent_match_slot (getSlot wem1 1))) :=
  ⟨(setWinner_precondition_spec wEB2 3 1 2 wem3 wem2 (by decide) (by decide)
      (by decide) (by decide)).1 (by decide),
    (setWinner_precondition_spec wEB 1 1 2 wem1 wem2 (by decide) (by decide)
      (by decide) (by decide)).2 (by decide) (by decide) (by decide)⟩

/-- Witness for C10: the no-op rejection at an identical position and a
concrete cross-match exchange. -/
theorem swapSlots_spec_witness :
    swapSlots wEB 1 1 1 1 = .error .noOp ∧
    (∃ b2, swapSlots wEB 1 1 2 2 = .ok b2 ∧
      readSlot b2 1 1 = getSlot wem2 2 ∧
      readSlot b2 2 2 = getSlot wem1 1 ∧
      ∀ k, k ≠ 1 → k ≠ 2 → findMatch b2 k = findMatch wEB k) :=
  ⟨(swapSlots_spec wEB 1 1 1 1 wem1 wem1 (by decide) (by decide) (by decide)
      (by decide)).1 ⟨rfl, rfl⟩,
    (swapSlots_spec wEB 1 1 2 2 wem1 wem2 (by decide) (by decide) (by decide)
      (by decide)).2.1 (by decide)⟩

end Octane
